import Mathlib

/-!
# ssgs: the ground-station gateway

A shallow embedding of the data server (`data_server.go`), of the sender tool
(`cmd/sender/sender.go`) and of the schedule server's plan listing
(`schedule_server.go`), followed by the properties of the frame codec, of the
framing-kind mapping, of the telemetry request and of the pass session loop.

Conventions of the embedding:
* a byte is a `Fin 256`; a `uint32` is a `Nat` reduced modulo `2 ^ 32`;
* a TCP connection read by the server is the list of bytes the peer sends,
  followed by end-of-stream;
* a goroutine blocked in a `select` is a step function over the events its
  `select` (or its blocking call) can observe;
* logging is not modelled, except for what `logNetworkError` decides.
-/

namespace ssgs

/-! ## Bytes and the byte order -/

/-- One octet. -/
abbrev Byte := Fin 256

/-- Go's conversion `byte(v)` of an unsigned integer: the low eight bits. -/
def byte (v : Nat) : Byte := ⟨v % 256, Nat.mod_lt v (by decide)⟩

/-- Go's conversion `uint32(n)` of a non-negative `int`: the low 32 bits. -/
def uint32 (n : Nat) : Nat := n % 2 ^ 32

/-- `binary.LittleEndian.PutUint32`: `b[0] = byte(v)`, `b[1] = byte(v >> 8)`,
`b[2] = byte(v >> 16)`, `b[3] = byte(v >> 24)`. -/
def LittleEndian.PutUint32 (v : Nat) : List Byte :=
  [byte v, byte (v >>> 8), byte (v >>> 16), byte (v >>> 24)]

/-- `binary.LittleEndian.Uint32`:
`uint32(b[0]) | uint32(b[1])<<8 | uint32(b[2])<<16 | uint32(b[3])<<24`
(the four operands occupy disjoint bits, so the bitwise or is a sum). -/
def LittleEndian.Uint32 : List Byte → Nat
  | [b0, b1, b2, b3] => b0.val + (b1.val <<< 8) + (b2.val <<< 16) + (b3.val <<< 24)
  | _ => 0

/-- `var ByteOrder = binary.LittleEndian` (in `data_server.go` and in `sender.go`). -/
def ByteOrder.PutUint32 (v : Nat) : List Byte := LittleEndian.PutUint32 v

/-- The decoding half of `ByteOrder`. -/
def ByteOrder.Uint32 (b : List Byte) : Nat := LittleEndian.Uint32 b

/-! ## Readers and writers -/

/-- The errors a read or a write can return. -/
inductive IOError where
  | EOF
  | ErrUnexpectedEOF
  | netError
  deriving DecidableEq, Repr

/-- `io.ReadFull(r, buf)` with `len(buf) = n`, on a reader holding the bytes `r`
followed by end-of-stream. Reading zero bytes succeeds without touching the
reader; no byte at all is `io.EOF`; some bytes but fewer than `n` is
`io.ErrUnexpectedEOF`. Returns the bytes read and the rest of the reader. -/
def ReadFull (r : List Byte) (n : Nat) : Except IOError (List Byte × List Byte) :=
  if n = 0 then .ok ([], r)
  else if r.length = 0 then .error IOError.EOF
  else if r.length < n then .error IOError.ErrUnexpectedEOF
  else .ok (r.take n, r.drop n)

/-- `binary.Read(in, ByteOrder, &l)` for `var l uint32`: four bytes are read in
full and decoded in `ByteOrder`. -/
def binaryReadUint32 (r : List Byte) : Except IOError (Nat × List Byte) :=
  match ReadFull r 4 with
  | .error e => .error e
  | .ok (bs, rest) => .ok (ByteOrder.Uint32 bs, rest)

/-- `binary.Read(in, ByteOrder, data)` for `data := make([]byte, l)`: exactly
`l` bytes are read in full. -/
def binaryReadBytes (r : List Byte) (l : Nat) : Except IOError (List Byte × List Byte) :=
  ReadFull r l

/-- `logNetworkError`: the first component is the returned boolean (`true` when
`err != nil`), the second tells whether a "Connection error" line is logged
(only for an error other than `io.EOF`). -/
def logNetworkError (err : Option IOError) : Bool × Bool :=
  match err with
  | some e => (true, decide (e ≠ IOError.EOF))
  | none => (false, false)

/-! ## The frame codec of `DataServer.serve` -/

/-- The bytes the outbound loop of `serve` writes for one payload taken from
`s.send`: `binary.Write(conn, ByteOrder, uint32(len(data)))` and then
`binary.Write(conn, ByteOrder, data)`. -/
def serveEncode (data : List Byte) : List Byte :=
  ByteOrder.PutUint32 (uint32 data.length) ++ data

/-- One pass of the body of the inbound loop of `serve`, up to the send on
`s.recv`: read the length `l`, allocate `make([]byte, l)`, read it in full.
Returns the frame and the unread rest, or the error on which
`logNetworkError` makes `serve` return. -/
def serveDecode (r : List Byte) : Except IOError (List Byte × List Byte) :=
  match binaryReadUint32 r with
  | .error e => .error e
  | .ok (l, rest) =>
    match binaryReadBytes rest l with
    | .error e => .error e
    | .ok (data, rest2) => .ok (data, rest2)

/-- The `err` returned by a `binary.Read`: nil when the read succeeds. -/
def readErr {α : Type} : Except IOError α → Option IOError
  | .error e => some e
  | .ok _ => none

/-- What a `binary.Read` leaves in its target: the value read, or `unread`
when the read failed and the target was not written. -/
def readValue {α : Type} (unread : α) : Except IOError α → α
  | .error _ => unread
  | .ok v => v

/-- How a run of the inbound loop ended: it returned because
`logNetworkError` returned `true` on the `err` of a read (with the flag
telling whether the error was logged), it is blocked in `s.recv <- data` with
no receiver, or the fuel of the model ran out. -/
inductive LoopEnd where
  | readError (err : Option IOError) (logged : Bool)
  | blocked (data : List Byte)
  | outOfFuel
  deriving DecidableEq, Repr

/-- What the inbound loop of `serve` did on a connection: the frames it sent on
`s.recv`, in order, and the way it ended. -/
structure InboundTrace where
  delivered : List (List Byte)
  stop : LoopEnd
  deriving DecidableEq, Repr

/-- The inbound loop of `serve`,
`for { err := read l; if logNetworkError(err) { return };
data := make([]byte, l); err = read data; if logNetworkError(err) { return };
s.recv <- data }`.
The loop returns exactly when `logNetworkError` returns `true`. After a read
that failed `l` is still zero, `data` is still the zeroed buffer, and the
reader is at end-of-stream. `receives` is the number of receives other
goroutines perform on `s.recv`: the send completes while one is left and
blocks for ever when none is. -/
def serveInboundFuel : Nat → Nat → List Byte → List (List Byte) → InboundTrace
  | 0, _, _, acc => ⟨acc, LoopEnd.outOfFuel⟩
  | fuel + 1, receives, r, acc =>
    let read1 := binaryReadUint32 r
    if (logNetworkError (readErr read1)).1 then
      ⟨acc, LoopEnd.readError (readErr read1) (logNetworkError (readErr read1)).2⟩
    else
      let lr := readValue (0, []) read1
      let read2 := binaryReadBytes lr.2 lr.1
      if (logNetworkError (readErr read2)).1 then
        ⟨acc, LoopEnd.readError (readErr read2) (logNetworkError (readErr read2)).2⟩
      else
        let dr := readValue (List.replicate lr.1 0, []) read2
        match receives with
        | 0 => ⟨acc, LoopEnd.blocked dr.1⟩
        | n + 1 => serveInboundFuel fuel n dr.2 (acc ++ [dr.1])

/-- The inbound loop on the whole input, with a receiver for every send on
`s.recv`; every pass consumes at least the four bytes of a length, so
`len(r) + 1` passes, and as many receives, are enough. -/
def serveInbound (r : List Byte) : InboundTrace :=
  serveInboundFuel (r.length + 1) (r.length + 1) r []

/-- An event observed by the `select` of the outbound goroutine of `serve`:
the context is done, or a payload arrives on `s.send`; the two options are the
errors of the two `binary.Write` calls (`none` when the write succeeds). -/
inductive OutEvent where
  | ctxDone
  | data (d : List Byte) (errLen errData : Option IOError)
  deriving DecidableEq, Repr

/-- The connection as the outbound goroutine of `serve` leaves it. -/
structure Conn where
  written : List Byte
  closed : Bool
  deriving DecidableEq, Repr

/-- The outbound goroutine of `serve`: `defer conn.Close()` and a loop around
`select { case <-ctx.Done(): return; case data := <-s.send: write, write }`.
A failed write adds nothing to the bytes written. When the events are
exhausted the goroutine is still blocked in its `select`. -/
def serveOutbound : List OutEvent → Conn → Conn
  | [], c => c
  | OutEvent.ctxDone :: _, c => { c with closed := true }
  | OutEvent.data d errLen errData :: es, c =>
    if (logNetworkError errLen).1 then { c with closed := true }
    else
      let c1 : Conn := { c with written := c.written ++ ByteOrder.PutUint32 (uint32 d.length) }
      if (logNetworkError errData).1 then { c1 with closed := true }
      else serveOutbound es { c1 with written := c1.written ++ d }

/-- What the outbound goroutine of `serve` observes once the inbound loop has
ended as `stop`: when the loop returned, `serve` returns and its
`defer cancel()` makes `ctx.Done()` ready; otherwise `serve` has not returned
and nothing is observed. -/
def serveDeferred : LoopEnd → List OutEvent
  | LoopEnd.readError _ _ => [OutEvent.ctxDone]
  | LoopEnd.blocked _ => []
  | LoopEnd.outOfFuel => []

/-- `serve` on a connection that carries the bytes `r` and then end-of-stream,
with `receives` receives performed on `s.recv` and nothing arriving on
`s.send`: the trace of the inbound loop, and the connection as the outbound
goroutine leaves it. -/
def serve (receives : Nat) (r : List Byte) : InboundTrace × Conn :=
  let trace := serveInboundFuel (r.length + 1) receives r []
  (trace, serveOutbound (serveDeferred trace.stop) ⟨[], false⟩)

/-! ## The sender tool -/

/-- The bytes `sender` writes for one file: `binary.Write(conn, ByteOrder,
&dataLength)` with `dataLength = uint32(len(data))`, then
`binary.Write(conn, ByteOrder, data)`. -/
def senderEncode (data : List Byte) : List Byte :=
  ByteOrder.PutUint32 (uint32 data.length) ++ data

/-- The bytes `sender` writes for its list of files when no write fails. -/
def senderMain : List (List Byte) → List Byte
  | [] => []
  | data :: files => senderEncode data ++ senderMain files

/-! ## Configuration (`config.go`) -/

/-- `DataServerConfig`: the configuration of a single data server. -/
structure DataServerConfig where
  Name : String
  Address : String
  Framing : String
  Satellite : String
  Channel : String
  deriving DecidableEq, Repr

/-- `GroundStationConfig`; the update interval is a `time.Duration` in nanoseconds. -/
structure GroundStationConfig where
  Name : String
  ID : String
  Address : String
  Key : String
  PlanUpdateInterval : Int
  deriving DecidableEq, Repr

/-! ## The platform API types the data server populates -/

/-- The values of `v1.Framing` that `NewDataServer` can choose. -/
inductive Framing where
  | BITSTREAM
  | AX25
  | IQ
  | WATERFALL
  deriving DecidableEq, Repr

/-- A protobuf timestamp, as nanoseconds since the epoch. -/
abbrev Timestamp := Int

/-- `api.RadioDeviceConfiguration`, the field the data server reads. -/
structure RadioDeviceConfiguration where
  CenterFrequencyHz : Nat
  deriving DecidableEq, Repr

/-- `api.Plan`, the fields the data server reads; `DownlinkRadioDevice` is a
pointer and may be nil. -/
structure Plan where
  PlanId : String
  DownlinkRadioDevice : Option RadioDeviceConfiguration
  deriving DecidableEq, Repr

/-- `v1.Telemetry`, the fields `TelemetryRequest` sets. -/
structure Telemetry where
  Data : List Byte
  Framing : Framing
  TimeFirstByteReceived : Timestamp
  TimeLastByteReceived : Timestamp
  DownlinkFrequencyHz : Nat
  deriving DecidableEq, Repr

/-- `api.SatelliteTelemetry`. -/
structure SatelliteTelemetry where
  PlanId : String
  Telemetry : Telemetry
  deriving DecidableEq, Repr

/-- The platform client as the data server uses it. Its method
`TelemetryRequest`, which wraps a `SatelliteTelemetry` into a stream request
of type `Req`, is defined outside the files embedded here and is a field. -/
structure Client (Req : Type) where
  TelemetryRequest : SatelliteTelemetry → Req

/-! ## `DataServer` -/

/-- A Go channel, identified by the `make` call that created it. -/
abbrev Chan := Nat

/-- `DataServer`. `send` and `recv` are the two channel fields, `ctxDone` tells
whether `ctx` has been cancelled. -/
structure DataServer (Req : Type) where
  gsConfig : GroundStationConfig
  config : DataServerConfig
  send : Chan
  recv : Chan
  client : Client Req
  framing : Framing
  ctxDone : Bool

/-- `unicode.ToUpper` restricted to ASCII, the branch `r <= MaxASCII`:
`'a'..'z'` are moved down by `'a' - 'A'`, every other rune is returned as is. -/
def asciiToUpper (c : Char) : Char :=
  if 'a' ≤ c ∧ c ≤ 'z' then Char.ofNat (c.toNat - 32) else c

/-- `unicode.ToUpper`: the ASCII branch, and the case table of the Go library
(`unicodeUpper`) for a rune above `MaxASCII`. -/
def unicodeToUpper (unicodeUpper : Char → Char) (c : Char) : Char :=
  if c.toNat ≤ 127 then asciiToUpper c else unicodeUpper c

/-- `strings.ToUpper` on a valid string. Its fast path for an ASCII-only string
and `Map(unicode.ToUpper, s)` agree: every rune is mapped by `unicode.ToUpper`. -/
def ToUpper (unicodeUpper : Char → Char) (s : String) : String :=
  String.mk (s.data.map (unicodeToUpper unicodeUpper))

/-- The `switch strings.ToUpper(config.Framing)` of `NewDataServer`. -/
def framingOf (unicodeUpper : Char → Char) (framing : String) : Framing :=
  let up := ToUpper unicodeUpper framing
  if up = "AX.25" then Framing.AX25
  else if up = "IQ" then Framing.IQ
  else if up = "WATERFALL" then Framing.WATERFALL
  else Framing.BITSTREAM

/-- `NewDataServer`: the framing is chosen from the configured string, `send`
and `recv` are two channels made by two separate `make` calls, and the context
is a fresh, not yet cancelled one. (The `listen` goroutine it starts is not
part of the value.) -/
def NewDataServer {Req : Type} (unicodeUpper : Char → Char) (gsConfig : GroundStationConfig)
    (config : DataServerConfig) (client : Client Req) : DataServer Req :=
  { gsConfig := gsConfig
    config := config
    client := client
    framing := framingOf unicodeUpper config.Framing
    send := 0
    recv := 1
    ctxDone := false }

/-- `DataServer.Stop`: `s.cancel()`, which cancels `s.ctx`. -/
def DataServer.Stop {Req : Type} (s : DataServer Req) : DataServer Req :=
  { s with ctxDone := true }

/-- `DataServer.TelemetryRequest`, with `now` the value of the one call of
`ptypes.TimestampNow()`. `none` is the nil-pointer panic of
`plan.DownlinkRadioDevice.CenterFrequencyHz` on a plan without a downlink
device. -/
def DataServer.TelemetryRequest {Req : Type} (s : DataServer Req) (now : Timestamp)
    (plan : Plan) (framing : Framing) (data : List Byte) : Option Req :=
  match plan.DownlinkRadioDevice with
  | none => none
  | some dev =>
    let freq := dev.CenterFrequencyHz
    let telemetry : SatelliteTelemetry :=
      { PlanId := plan.PlanId
        Telemetry :=
          { Data := data
            Framing := framing
            TimeFirstByteReceived := now
            TimeLastByteReceived := now
            DownlinkFrequencyHz := freq } }
    some (s.client.TelemetryRequest telemetry)

/-! ## The pass session: `DataServer.PlanStart` -/

/-- Where a running `PlanStart` is: asleep until AOS, in its `for { select }`
loop, returned, or stopped by a panic. -/
inductive PassState where
  | WaitingForAOS
  | Active
  | Ended
  | Panicked
  deriving DecidableEq, Repr

/-- A running `PlanStart`: its state and the requests it has passed to
`stream.Send`, oldest first. -/
structure Session (Req : Type) where
  state : PassState
  sent : List Req

/-- What can happen to a running `PlanStart`.
* `aosReached openErr`: `time.Sleep(time.Until(aos))` returns and
  `OpenGroundStationStream` returns an error or not;
* `losTimer`: the `select` takes `case <-losTimer.C`;
* `frame data now sendErr`: the `select` takes `case data := <-s.send`,
  `now` is the clock read by `TelemetryRequest` and `sendErr` tells whether
  `stream.Send` returns an error. -/
inductive PassEvent where
  | aosReached (openErr : Bool)
  | losTimer
  | frame (data : List Byte) (now : Timestamp) (sendErr : Bool)
  deriving DecidableEq, Repr

/-- The start of `PlanStart`: it returns at once when `parseTimestamps` fails,
otherwise it sleeps until AOS. -/
def PlanStart.init {Req : Type} (parseErr : Bool) : Session Req :=
  if parseErr then ⟨PassState.Ended, []⟩ else ⟨PassState.WaitingForAOS, []⟩

/-- One step of `PlanStart`. While asleep only the end of the sleep is
observed; in the loop the `select` has the two cases `losTimer.C` and
`s.send`; a send error is logged and the loop goes on. -/
def PlanStart.step {Req : Type} (s : DataServer Req) (plan : Plan) (sess : Session Req) :
    PassEvent → Session Req
  | PassEvent.aosReached openErr =>
    match sess.state with
    | PassState.WaitingForAOS =>
      if openErr then { sess with state := PassState.Ended }
      else { sess with state := PassState.Active }
    | _ => sess
  | PassEvent.losTimer =>
    match sess.state with
    | PassState.Active => { sess with state := PassState.Ended }
    | _ => sess
  | PassEvent.frame data now _sendErr =>
    match sess.state with
    | PassState.Active =>
      match s.TelemetryRequest now plan s.framing data with
      | none => { sess with state := PassState.Panicked }
      | some request => { sess with sent := sess.sent ++ [request] }
    | _ => sess

/-- A run of `PlanStart` over the events it observes, in order. -/
def PlanStart.run {Req : Type} (s : DataServer Req) (plan : Plan) :
    Session Req → List PassEvent → Session Req
  | sess, [] => sess
  | sess, e :: es => PlanStart.run s plan (PlanStart.step s plan sess e) es

/-! ## A connection and a pass session side by side -/

/-- The inbound loop of `serve` as a goroutine: at the top of its loop with
the bytes `r` unread, blocked in `s.recv <- data`, or returned. -/
inductive Inbound where
  | reading (r : List Byte)
  | sending (data : List Byte) (r : List Byte)
  | returned (e : IOError)
  deriving DecidableEq, Repr

/-- A data server with one connection being served and one running
`PlanStart`. -/
structure System (Req : Type) where
  server : DataServer Req
  inbound : Inbound
  session : Session Req

/-- The moves of the system.
* `read`: the inbound loop reads its next frame and reaches `s.recv <- data`,
  or returns on a read error;
* `receive now sendErr`: the `select` of `PlanStart` takes
  `case data := <-s.send`, receiving the value a goroutine is sending;
* `aosReached`, `losTimer`: as in `PassEvent`;
* `stop`: `Stop` is called on the data server. -/
inductive Action where
  | read
  | receive (now : Timestamp) (sendErr : Bool)
  | aosReached (openErr : Bool)
  | losTimer
  | stop
  deriving DecidableEq, Repr

/-- One move of the system. The channels are unbuffered: a receive on
`s.send` completes only together with a send on that same channel, and the
only send in the program is the `s.recv <- data` of the inbound loop.
`PlanStart` never reads `s.ctx`, and the context it creates derives from
`context.Background()`, so `stop` changes the server and not the session.
A move that is not enabled leaves the system as it is. -/
def System.step {Req : Type} (plan : Plan) (sys : System Req) : Action → System Req
  | Action.read =>
    match sys.inbound with
    | Inbound.reading r =>
      match serveDecode r with
      | .error e => { sys with inbound := Inbound.returned e }
      | .ok (data, rest) => { sys with inbound := Inbound.sending data rest }
    | _ => sys
  | Action.receive now sendErr =>
    match sys.inbound with
    | Inbound.sending data rest =>
      if sys.server.recv = sys.server.send ∧ sys.session.state = PassState.Active then
        { sys with
          inbound := Inbound.reading rest
          session := PlanStart.step sys.server plan sys.session (PassEvent.frame data now sendErr) }
      else sys
    | _ => sys
  | Action.aosReached openErr =>
    { sys with session := PlanStart.step sys.server plan sys.session (PassEvent.aosReached openErr) }
  | Action.losTimer =>
    { sys with session := PlanStart.step sys.server plan sys.session PassEvent.losTimer }
  | Action.stop => { sys with server := sys.server.Stop }

/-- A run of the system under a schedule of moves. -/
def System.run {Req : Type} (plan : Plan) : System Req → List Action → System Req
  | sys, [] => sys
  | sys, a :: as => System.run plan (System.step plan sys a) as

/-- A freshly built data server serving a connection that will carry the bytes
`r`, with a pass session already in its `Active` loop. -/
def System.active {Req : Type} (unicodeUpper : Char → Char) (gsConfig : GroundStationConfig)
    (config : DataServerConfig) (client : Client Req) (r : List Byte) : System Req :=
  { server := NewDataServer unicodeUpper gsConfig config client
    inbound := Inbound.reading r
    session := ⟨PassState.Active, []⟩ }

/-! ## The schedule server (`schedule_server.go`) -/

/-- What `home` writes: the status code and the body. -/
structure Response where
  status : Nat
  body : String
  deriving DecidableEq, Repr

/-- The loop `for _, plan := range plans` of `home`: every plan is marshalled
into the buffer and followed by `",\n"`; the first marshalling error ends it. -/
def marshalPlans (marshal : Plan → Except String String) :
    List Plan → String → Except String String
  | [], buffer => .ok buffer
  | plan :: plans, buffer =>
    match marshal plan with
    | .error e => .error e
    | .ok json => marshalPlans marshal plans (buffer ++ json ++ ",\n")

/-- The error body `fmt.Sprintf("{\"error\": %q}", err)`; `quote` is the `%q` verb. -/
def errorBody (quote : String → String) (err : String) : String :=
  "\x7b\"error\": " ++ quote err ++ "\x7d"

/-- `ScheduleServer.home`: `listed` is the result of `s.client.ListPlans`,
`marshal` is `jsonpb.Marshaler.Marshal` with the options of the handler. -/
def home (quote : String → String) (marshal : Plan → Except String String)
    (method : String) (listed : Except String (List Plan)) : Response :=
  if method = "GET" then
    match listed with
    | .error err => ⟨500, errorBody quote err⟩
    | .ok plans =>
      match marshalPlans marshal plans "" with
      | .error err => ⟨500, errorBody quote err⟩
      | .ok buffer => ⟨200, "\x7b\"plans\": [" ++ "\n" ++ buffer ++ "]\x7d" ++ "\n"⟩
  else if method = "POST" then ⟨201, "\x7b\"message\": \"post called\"\x7d"⟩
  else if method = "PUT" then ⟨202, "\x7b\"message\": \"put called\"\x7d"⟩
  else if method = "DELETE" then ⟨200, "\x7b\"message\": \"delete called\"\x7d"⟩
  else ⟨404, "\x7b\"message\": \"not found\"\x7d"⟩

/-! ## Vocabulary of the statements -/

/-- The string `s` is the upper-case string `v` up to letter case: the two have
the same length and every character of `s` is the character of `v` at that
place or its lower-case form. -/
def sameUpToCase : List Char → List Char → Bool
  | [], [] => true
  | c :: cs, d :: ds => (c == d || c == d.toLower) && sameUpToCase cs ds
  | _, _ => false

/-- The request `PlanStart` passes to `stream.Send` when its `select` takes the
event `e` in the `Active` loop: the telemetry request of a frame event, nothing
for another event. -/
def PassEvent.request {Req : Type} (s : DataServer Req) (plan : Plan) : PassEvent → Option Req
  | PassEvent.frame data now _ => s.TelemetryRequest now plan s.framing data
  | _ => none

/-- The event `e` with the outcome of its `stream.Send` replaced by `sendErr`. -/
def PassEvent.withSendErr (sendErr : Bool) : PassEvent → PassEvent
  | PassEvent.frame data now _ => PassEvent.frame data now sendErr
  | e => e

/-! ## The frame codec -/

theorem uint32_of_lt {n : Nat} (h : n < 2 ^ 32) : uint32 n = n := by
  unfold uint32
  exact Nat.mod_eq_of_lt h

theorem Uint32_PutUint32 {v : Nat} (h : v < 2 ^ 32) :
    ByteOrder.Uint32 (ByteOrder.PutUint32 v) = v := by
  simp only [ByteOrder.Uint32, ByteOrder.PutUint32, LittleEndian.Uint32,
    LittleEndian.PutUint32, byte, Nat.shiftRight_eq_div_pow, Nat.shiftLeft_eq]
  norm_num at h ⊢
  omega

theorem PutUint32_length (v : Nat) : (ByteOrder.PutUint32 v).length = 4 := rfl

theorem ReadFull_append (a b : List Byte) :
    ReadFull (a ++ b) a.length = .ok (a, b) := by
  unfold ReadFull
  by_cases h : a.length = 0
  · have : a = [] := List.length_eq_zero.mp h
    subst this
    simp
  · have h1 : ¬ (a ++ b).length = 0 := by simp [List.length_append]; intro ha; simp [ha] at h
    have h2 : ¬ (a ++ b).length < a.length := by simp [List.length_append]
    simp [h, h2]

theorem binaryReadUint32_PutUint32 {v : Nat} (h : v < 2 ^ 32) (rest : List Byte) :
    binaryReadUint32 (ByteOrder.PutUint32 v ++ rest) = .ok (v, rest) := by
  have := ReadFull_append (ByteOrder.PutUint32 v) rest
  rw [PutUint32_length] at this
  simp only [binaryReadUint32, this, Uint32_PutUint32 h]

theorem serveDecode_serveEncode {data : List Byte} (h : data.length < 2 ^ 32)
    (rest : List Byte) :
    serveDecode (serveEncode data ++ rest) = .ok (data, rest) := by
  unfold serveDecode serveEncode
  rw [uint32_of_lt h, List.append_assoc, binaryReadUint32_PutUint32 h]
  simp only [binaryReadBytes, ReadFull_append]

theorem ReadFull_nil {n : Nat} (h : n ≠ 0) : ReadFull [] n = .error IOError.EOF := by
  simp [ReadFull, h]

theorem ReadFull_short {r : List Byte} {n : Nat} (h0 : r ≠ []) (h : r.length < n) :
    ReadFull r n = .error IOError.ErrUnexpectedEOF := by
  have hn : n ≠ 0 := by omega
  have hr : r.length ≠ 0 := fun e => h0 (List.length_eq_zero.mp e)
  simp [ReadFull, hn, hr, h]

theorem ReadFull_rest_le {r : List Byte} {n : Nat} {a rest : List Byte}
    (h : ReadFull r n = .ok (a, rest)) : rest.length ≤ r.length := by
  unfold ReadFull at h
  split at h
  · cases h; exact le_refl _
  · split at h
    · cases h
    · split at h
      · cases h
      · cases h
        rw [List.length_drop]
        exact Nat.sub_le _ _

theorem serveInboundFuel_short (fuel receives : Nat) {r : List Byte} (h : r.length < 4)
    (acc : List (List Byte)) :
    serveInboundFuel (fuel + 1) receives r acc
      = ⟨acc, LoopEnd.readError
          (some (if r = [] then IOError.EOF else IOError.ErrUnexpectedEOF))
          (decide (r ≠ []))⟩ := by
  by_cases h0 : r = []
  · subst h0
    simp [serveInboundFuel, binaryReadUint32, ReadFull_nil, logNetworkError, readErr]
  · simp [serveInboundFuel, binaryReadUint32, ReadFull_short h0 h, logNetworkError, readErr, h0]

theorem serveInboundFuel_truncated (fuel receives : Nat) {L : Nat} {payload : List Byte}
    (hL : 0 < L) (hL32 : L < 2 ^ 32) (hshort : payload.length < L) (acc : List (List Byte)) :
    serveInboundFuel (fuel + 1) receives (ByteOrder.PutUint32 L ++ payload) acc
      = ⟨acc, LoopEnd.readError
          (some (if payload = [] then IOError.EOF else IOError.ErrUnexpectedEOF))
          (decide (payload ≠ []))⟩ := by
  by_cases h0 : payload = []
  · subst h0
    have hne : L ≠ 0 := by omega
    have hread := binaryReadUint32_PutUint32 hL32 []
    rw [List.append_nil] at hread
    simp [serveInboundFuel, hread, binaryReadBytes, ReadFull_nil hne, logNetworkError, readErr,
      readValue]
  · simp [serveInboundFuel, binaryReadUint32_PutUint32 hL32, binaryReadBytes,
      ReadFull_short h0 hshort, logNetworkError, readErr, readValue, h0]

/-- The inbound loop never stops for lack of fuel: with `len(r) + 1` passes
allowed it returns on a read error or blocks in its send. -/
theorem serveInboundFuel_total (fuel receives : Nat) (r : List Byte) (acc : List (List Byte))
    (h : r.length < fuel) :
    (serveInboundFuel fuel receives r acc).stop ≠ LoopEnd.outOfFuel := by
  induction fuel generalizing receives r acc with
  | zero => omega
  | succ n ih =>
    by_cases h4 : r.length < 4
    · rw [serveInboundFuel_short n receives h4]
      simp
    · have hr : ReadFull r 4 = .ok (r.take 4, r.drop 4) := by
        have h1 : ¬ r.length = 0 := by omega
        simp [ReadFull, h1, h4]
      simp only [serveInboundFuel, binaryReadUint32, hr, binaryReadBytes, readErr, readValue,
        logNetworkError]
      cases hd : ReadFull (r.drop 4) (ByteOrder.Uint32 (r.take 4)) with
      | error e => simp
      | ok p =>
        obtain ⟨data, rest2⟩ := p
        cases receives with
        | zero => simp
        | succ m =>
          simp only [Bool.false_eq_true, if_false]
          apply ih
          have hlen := ReadFull_rest_le hd
          rw [List.length_drop] at hlen
          omega

/-- The inbound loop of `serve` always ends on a finite input: it returns on a
read error, never for lack of fuel. -/
theorem serveInbound_total (r : List Byte) : (serveInbound r).stop ≠ LoopEnd.outOfFuel :=
  serveInboundFuel_total (r.length + 1) (r.length + 1) r [] (Nat.lt_succ_self _)

theorem serveDecode_wrapped {b : List Byte} (h : b.length = 2 ^ 32) :
    serveDecode (serveEncode b) = .ok ([], b) := by
  have h0 : uint32 b.length = 0 := by
    unfold uint32
    rw [h]
    exact Nat.mod_self _
  have hread := binaryReadUint32_PutUint32 (by norm_num : 0 < 2 ^ 32) b
  unfold serveDecode serveEncode
  rw [h0, hread]
  simp [binaryReadBytes, ReadFull]

theorem serveOutbound_data (d : List Byte) (c : Conn) :
    serveOutbound [OutEvent.data d none none] c
      = { c with written := c.written ++ serveEncode d } := by
  simp [serveOutbound, logNetworkError, serveEncode]

theorem PutUint32_value {v : Nat} (h : v < 2 ^ 32) :
    ∃ b0 b1 b2 b3 : Byte, ByteOrder.PutUint32 v = [b0, b1, b2, b3] ∧
      b0.val + 256 * b1.val + 65536 * b2.val + 16777216 * b3.val = v := by
  refine ⟨byte v, byte (v >>> 8), byte (v >>> 16), byte (v >>> 24), rfl, ?_⟩
  simp only [byte, Nat.shiftRight_eq_div_pow]
  norm_num at h ⊢
  omega

theorem serveInboundFuel_ok (fuel receives : Nat) {r data rest : List Byte}
    (h : serveDecode r = .ok (data, rest)) (acc : List (List Byte)) :
    serveInboundFuel (fuel + 1) (receives + 1) r acc
      = serveInboundFuel fuel receives rest (acc ++ [data]) := by
  unfold serveDecode at h
  cases h1 : binaryReadUint32 r with
  | error e => simp [h1] at h
  | ok p =>
    obtain ⟨l, rest1⟩ := p
    simp only [h1] at h
    cases h2 : binaryReadBytes rest1 l with
    | error e => simp [h2] at h
    | ok q =>
      obtain ⟨d, rest2⟩ := q
      simp only [h2] at h
      injection h with h
      injection h with hd hr
      subst hd hr
      simp [serveInboundFuel, h1, h2, readErr, readValue, logNetworkError]

theorem serveInboundFuel_blocked (fuel : Nat) {r data rest : List Byte}
    (h : serveDecode r = .ok (data, rest)) (acc : List (List Byte)) :
    serveInboundFuel (fuel + 1) 0 r acc = ⟨acc, LoopEnd.blocked data⟩ := by
  unfold serveDecode at h
  cases h1 : binaryReadUint32 r with
  | error e => simp [h1] at h
  | ok p =>
    obtain ⟨l, rest1⟩ := p
    simp only [h1] at h
    cases h2 : binaryReadBytes rest1 l with
    | error e => simp [h2] at h
    | ok q =>
      obtain ⟨d, rest2⟩ := q
      simp only [h2] at h
      injection h with h
      injection h with hd hr
      subst hd hr
      simp [serveInboundFuel, h1, h2, readErr, readValue, logNetworkError]

theorem serveInboundFuel_eof (fuel receives : Nat) (acc : List (List Byte)) :
    serveInboundFuel (fuel + 1) receives [] acc
      = ⟨acc, LoopEnd.readError (some IOError.EOF) false⟩ := by
  simp [serveInboundFuel, binaryReadUint32, ReadFull_nil, logNetworkError, readErr]

/-- While the inbound loop of `serve` is blocked in its send the connection
stays open: on the complete frame `aa` with no receiver on `s.recv` nothing is
delivered and nothing is closed. -/
theorem serve_blocked_open :
    serve 0 (serveEncode [170]) = (⟨[], LoopEnd.blocked [170]⟩, ⟨[], false⟩) := by
  have hdec := @serveDecode_serveEncode [170] (by norm_num) []
  rw [List.append_nil] at hdec
  simp only [serve, serveInboundFuel_blocked _ hdec, serveDeferred, serveOutbound]

/-- C1 (as amended): for every byte payload `b` shorter than `2 ^ 32` bytes,
the empty one included, the frame decode of `serve` run on the bytes its frame
encode writes for `b` succeeds, returns exactly `b` and leaves none of the
written bytes unread; the inbound loop run on those bytes delivers the one
frame `b` and then ends on a clean end-of-stream. -/
theorem frame_roundtrip (b : List Byte) (h : b.length < 2 ^ 32) :
    serveDecode (serveEncode b) = .ok (b, []) ∧
    serveInbound (serveEncode b) = ⟨[b], LoopEnd.readError (some IOError.EOF) false⟩ := by
  have hdec := serveDecode_serveEncode h []
  rw [List.append_nil] at hdec
  refine ⟨hdec, ?_⟩
  have hlen : (serveEncode b).length + 1 = (b.length + 3) + 1 + 1 := by
    simp [serveEncode, PutUint32_length]
    omega
  unfold serveInbound
  rw [hlen, serveInboundFuel_ok _ _ hdec, serveInboundFuel_eof]
  rfl

/-- Witness of C1 (as amended): the payload `01 02 03`. -/
theorem frame_roundtrip_witness :
    ([1, 2, 3] : List Byte).length < 2 ^ 32 ∧
    serveDecode (serveEncode [1, 2, 3]) = .ok ([1, 2, 3], []) ∧
    serveInbound (serveEncode [1, 2, 3])
      = ⟨[[1, 2, 3]], LoopEnd.readError (some IOError.EOF) false⟩ :=
  ⟨by norm_num, frame_roundtrip [1, 2, 3] (by norm_num)⟩

/-- C1 as stated fails: for the payload of `2 ^ 32` zero bytes the length
written is `uint32(2 ^ 32) = 0`, so the decode returns the empty frame and
leaves the whole payload unread. -/
theorem frame_roundtrip_counterexample :
    serveDecode (serveEncode (List.replicate (2 ^ 32) (0 : Byte)))
      = .ok ([], List.replicate (2 ^ 32) 0) ∧
    serveDecode (serveEncode (List.replicate (2 ^ 32) (0 : Byte)))
      ≠ .ok (List.replicate (2 ^ 32) 0, []) := by
  have hlen : (List.replicate (2 ^ 32) (0 : Byte)).length = 2 ^ 32 := List.length_replicate _ _
  have hdec := serveDecode_wrapped hlen
  refine ⟨hdec, ?_⟩
  rw [hdec]
  intro heq
  injection heq with heq
  have h1 := congrArg (fun p : List Byte × List Byte => p.2.length) heq
  simp only [List.length_nil] at h1
  rw [hlen] at h1
  norm_num at h1

theorem serve_eq (receives : Nat) (r : List Byte) :
    serve receives r
      = (serveInboundFuel (r.length + 1) receives r [],
          serveOutbound (serveDeferred (serveInboundFuel (r.length + 1) receives r []).stop)
            ⟨[], false⟩) := rfl

theorem serveDecode_short {r : List Byte} (h : r.length < 4) :
    serveDecode r = .error (if r = [] then IOError.EOF else IOError.ErrUnexpectedEOF) := by
  by_cases h0 : r = []
  · subst h0
    simp [serveDecode, binaryReadUint32, ReadFull_nil]
  · simp [serveDecode, binaryReadUint32, ReadFull_short h0 h, h0]

theorem serveDecode_truncated {L : Nat} {payload : List Byte}
    (hL : 0 < L) (hL32 : L < 2 ^ 32) (hshort : payload.length < L) :
    serveDecode (ByteOrder.PutUint32 L ++ payload)
      = .error (if payload = [] then IOError.EOF else IOError.ErrUnexpectedEOF) := by
  have hread := binaryReadUint32_PutUint32 hL32 payload
  unfold serveDecode
  rw [hread]
  by_cases h0 : payload = []
  · subst h0
    have hne : L ≠ 0 := by omega
    simp [binaryReadBytes, ReadFull_nil hne]
  · simp [binaryReadBytes, ReadFull_short h0 hshort, h0]

/-- C2: for every length `0 < L < 2 ^ 32`, every payload of fewer than `L`
bytes and any number of receivers on `recv`, on the stream made of the four
length bytes of `L`, the payload and end-of-stream, the read of the payload in
the inbound loop of `serve` returns a non-nil error (`io.EOF` when no payload
byte came, `io.ErrUnexpectedEOF` otherwise), `logNetworkError` returns `true`
on it, the loop returns having delivered no frame on `recv`, and with `serve`
returned the connection is closed; a stream that ends inside the four length
bytes fails at the read of the length in the same way and delivers no frame
either. -/
theorem partial_frame_rejected (L : Nat) (payload : List Byte) (receives : Nat)
    (hL : 0 < L) (hL32 : L < 2 ^ 32) (hshort : payload.length < L) :
    (serve receives (ByteOrder.PutUint32 L ++ payload)).1
      = ⟨[], LoopEnd.readError
          (some (if payload = [] then IOError.EOF else IOError.ErrUnexpectedEOF))
          (decide (payload ≠ []))⟩ ∧
    (logNetworkError (readErr (serveDecode (ByteOrder.PutUint32 L ++ payload)))).1 = true ∧
    (serve receives (ByteOrder.PutUint32 L ++ payload)).2.closed = true ∧
    ∀ r : List Byte, r.length < 4 →
      (serve receives r).1
        = ⟨[], LoopEnd.readError (some (if r = [] then IOError.EOF else IOError.ErrUnexpectedEOF))
            (decide (r ≠ []))⟩ ∧
      (logNetworkError (readErr (serveDecode r))).1 = true ∧
      (serve receives r).2.closed = true := by
  have h1 := serveInboundFuel_truncated (ByteOrder.PutUint32 L ++ payload).length receives
    hL hL32 hshort []
  refine ⟨?_, ?_, ?_, ?_⟩
  · rw [serve_eq]
    dsimp only
    exact h1
  · rw [serveDecode_truncated hL hL32 hshort]
    rfl
  · rw [serve_eq]
    dsimp only
    rw [h1]
    rfl
  · intro r hr
    have h2 := serveInboundFuel_short r.length receives hr []
    refine ⟨?_, ?_, ?_⟩
    · rw [serve_eq]
      dsimp only
      exact h2
    · rw [serveDecode_short hr]
      rfl
    · rw [serve_eq]
      dsimp only
      rw [h2]
      rfl

/-- Witness of C2: the length 3 followed by the two bytes `0a 0b`, with no
receiver on `recv`. -/
theorem partial_frame_rejected_witness :
    (0 < 3 ∧ 3 < 2 ^ 32 ∧ ([10, 11] : List Byte).length < 3) ∧
    (serve 0 (ByteOrder.PutUint32 3 ++ [10, 11])).1
      = ⟨[], LoopEnd.readError (some IOError.ErrUnexpectedEOF) true⟩ ∧
    (serve 0 (ByteOrder.PutUint32 3 ++ [10, 11])).2.closed = true := by
  have h := partial_frame_rejected 3 [10, 11] 0 (by norm_num) (by norm_num) (by norm_num)
  refine ⟨⟨by norm_num, by norm_num, by norm_num⟩, ?_, h.2.2.1⟩
  rw [h.1]
  rfl

/-- C3: for every payload `b` with `len(b) < 2 ^ 32`, the bytes the outbound
loop of `serve` writes for `b` and the bytes the sender tool writes for `b` are
the same: four bytes `b0 b1 b2 b3` with
`b0 + 2^8 b1 + 2^16 b2 + 2^24 b3 = len(b)` (least significant byte first),
followed by `b` unchanged, `4 + len(b)` bytes in all. -/
theorem wire_format (b : List Byte) (h : b.length < 2 ^ 32) :
    (serveOutbound [OutEvent.data b none none] ⟨[], false⟩).written = senderEncode b ∧
    senderMain [b] = senderEncode b ∧
    (∃ b0 b1 b2 b3 : Byte, senderEncode b = b0 :: b1 :: b2 :: b3 :: b ∧
      b0.val + 256 * b1.val + 65536 * b2.val + 16777216 * b3.val = b.length) ∧
    (senderEncode b).length = 4 + b.length := by
  refine ⟨?_, ?_, ?_, ?_⟩
  · rw [serveOutbound_data]
    simp [serveEncode, senderEncode]
  · simp [senderMain]
  · obtain ⟨b0, b1, b2, b3, hput, hval⟩ := PutUint32_value h
    refine ⟨b0, b1, b2, b3, ?_, hval⟩
    unfold senderEncode
    rw [uint32_of_lt h, hput]
    rfl
  · simp [senderEncode, PutUint32_length]

/-- Witness of C3: the payload `aa bb`. -/
theorem wire_format_witness :
    ([170, 187] : List Byte).length < 2 ^ 32 ∧
    ((serveOutbound [OutEvent.data [170, 187] none none] ⟨[], false⟩).written
        = senderEncode [170, 187] ∧
    senderMain [[170, 187]] = senderEncode [170, 187] ∧
    (∃ b0 b1 b2 b3 : Byte, senderEncode [170, 187] = b0 :: b1 :: b2 :: b3 :: [170, 187] ∧
      b0.val + 256 * b1.val + 65536 * b2.val + 16777216 * b3.val
        = ([170, 187] : List Byte).length) ∧
    (senderEncode [170, 187]).length = 4 + ([170, 187] : List Byte).length) :=
  ⟨by norm_num, wire_format [170, 187] (by norm_num)⟩

/-! ## The framing kind -/

theorem unicodeToUpper_variant (u : Char → Char) {c d : Char}
    (hd : d ∈ ['A', 'X', '.', '2', '5', 'I', 'Q', 'W', 'T', 'E', 'R', 'F', 'L', 'B', 'S', 'M'])
    (h : (c == d || c == d.toLower) = true) : unicodeToUpper u c = d := by
  simp only [Bool.or_eq_true, beq_iff_eq] at h
  simp only [List.mem_cons, List.mem_singleton, List.not_mem_nil, or_false] at hd
  rcases hd with rfl | rfl | rfl | rfl | rfl | rfl | rfl | rfl | rfl | rfl | rfl | rfl | rfl |
    rfl | rfl | rfl <;> rcases h with rfl | rfl <;> rfl

theorem map_unicodeToUpper_variant (u : Char → Char) :
    ∀ (cs ds : List Char),
      (∀ d ∈ ds, d ∈ ['A', 'X', '.', '2', '5', 'I', 'Q', 'W', 'T', 'E', 'R', 'F', 'L', 'B',
        'S', 'M']) →
      sameUpToCase cs ds = true → cs.map (unicodeToUpper u) = ds
  | [], [], _, _ => rfl
  | [], _ :: _, _, h => by simp [sameUpToCase] at h
  | _ :: _, [], _, h => by simp [sameUpToCase] at h
  | c :: cs, d :: ds, hds, h => by
    simp only [sameUpToCase, Bool.and_eq_true] at h
    have hc := unicodeToUpper_variant u (hds d (List.mem_cons_self _ _)) h.1
    have hrest := map_unicodeToUpper_variant u cs ds
      (fun x hx => hds x (List.mem_cons_of_mem _ hx)) h.2
    simp only [List.map_cons, hc, hrest]

theorem ToUpper_variant (u : Char → Char) (s v : String)
    (hv : ∀ d ∈ v.data, d ∈ ['A', 'X', '.', '2', '5', 'I', 'Q', 'W', 'T', 'E', 'R', 'F', 'L',
      'B', 'S', 'M'])
    (h : sameUpToCase s.data v.data = true) : ToUpper u s = v := by
  unfold ToUpper
  rw [map_unicodeToUpper_variant u s.data v.data hv h]

/-- C4: for every configured framing string, `NewDataServer` sets the framing
to AX25 when the upper-cased string is "AX.25", to IQ when it is "IQ", to
WATERFALL when it is "WATERFALL" and to BITSTREAM for every other string; each
documented value (BITSTREAM, AX.25, WATERFALL, IQ) written in any letter case
maps to its own kind, and the empty string maps to BITSTREAM. -/
theorem framing_kind_mapping {Req : Type} (u : Char → Char) (gsConfig : GroundStationConfig)
    (config : DataServerConfig) (client : Client Req) :
    (ToUpper u config.Framing = "AX.25" →
      (NewDataServer u gsConfig config client).framing = Framing.AX25) ∧
    (ToUpper u config.Framing = "IQ" →
      (NewDataServer u gsConfig config client).framing = Framing.IQ) ∧
    (ToUpper u config.Framing = "WATERFALL" →
      (NewDataServer u gsConfig config client).framing = Framing.WATERFALL) ∧
    (ToUpper u config.Framing ≠ "AX.25" → ToUpper u config.Framing ≠ "IQ" →
      ToUpper u config.Framing ≠ "WATERFALL" →
      (NewDataServer u gsConfig config client).framing = Framing.BITSTREAM) ∧
    (sameUpToCase config.Framing.data "BITSTREAM".data = true →
      (NewDataServer u gsConfig config client).framing = Framing.BITSTREAM) ∧
    (sameUpToCase config.Framing.data "AX.25".data = true →
      (NewDataServer u gsConfig config client).framing = Framing.AX25) ∧
    (sameUpToCase config.Framing.data "WATERFALL".data = true →
      (NewDataServer u gsConfig config client).framing = Framing.WATERFALL) ∧
    (sameUpToCase config.Framing.data "IQ".data = true →
      (NewDataServer u gsConfig config client).framing = Framing.IQ) ∧
    (config.Framing = "" →
      (NewDataServer u gsConfig config client).framing = Framing.BITSTREAM) := by
  refine ⟨?_, ?_, ?_, ?_, ?_, ?_, ?_, ?_, ?_⟩
  · intro h
    simp [NewDataServer, framingOf, h]
  · intro h
    simp [NewDataServer, framingOf, h]
  · intro h
    simp [NewDataServer, framingOf, h]
  · intro h1 h2 h3
    simp [NewDataServer, framingOf, h1, h2, h3]
  · intro h
    have hup := ToUpper_variant u config.Framing "BITSTREAM" (by decide) h
    simp [NewDataServer, framingOf, hup]
  · intro h
    have hup := ToUpper_variant u config.Framing "AX.25" (by decide) h
    simp [NewDataServer, framingOf, hup]
  · intro h
    have hup := ToUpper_variant u config.Framing "WATERFALL" (by decide) h
    simp [NewDataServer, framingOf, hup]
  · intro h
    have hup := ToUpper_variant u config.Framing "IQ" (by decide) h
    simp [NewDataServer, framingOf, hup]
  · intro h
    have hup : ToUpper u config.Framing = "" := by rw [h]; rfl
    simp [NewDataServer, framingOf, hup]

/-- Witness of C4: the configured string "ax.25" gives AX25, "Waterfall" gives
WATERFALL and "hdlc" gives BITSTREAM. -/
theorem framing_kind_mapping_witness :
    (NewDataServer id ⟨"gs", "1", "a", "k", 0⟩ ⟨"d", "a", "ax.25", "", ""⟩
      (Client.mk (id : SatelliteTelemetry → SatelliteTelemetry))).framing = Framing.AX25 ∧
    (NewDataServer id ⟨"gs", "1", "a", "k", 0⟩ ⟨"d", "a", "Waterfall", "", ""⟩
      (Client.mk (id : SatelliteTelemetry → SatelliteTelemetry))).framing = Framing.WATERFALL ∧
    (NewDataServer id ⟨"gs", "1", "a", "k", 0⟩ ⟨"d", "a", "hdlc", "", ""⟩
      (Client.mk (id : SatelliteTelemetry → SatelliteTelemetry))).framing = Framing.BITSTREAM :=
  ⟨(framing_kind_mapping id ⟨"gs", "1", "a", "k", 0⟩ ⟨"d", "a", "ax.25", "", ""⟩
      (Client.mk id)).2.2.2.2.2.1 (by decide),
    (framing_kind_mapping id ⟨"gs", "1", "a", "k", 0⟩ ⟨"d", "a", "Waterfall", "", ""⟩
      (Client.mk id)).2.2.2.2.2.2.1 (by decide),
    (framing_kind_mapping id ⟨"gs", "1", "a", "k", 0⟩ ⟨"d", "a", "hdlc", "", ""⟩
      (Client.mk id)).2.2.2.1 (by decide) (by decide) (by decide)⟩

/-! ## The telemetry request -/

/-- C5: for every plan with a downlink radio device, every framing kind and
every payload, `TelemetryRequest` returns the client's request for a telemetry
message that carries the plan's PlanId, the payload unchanged, the given
framing kind, the device's center frequency as DownlinkFrequencyHz, and the
one clock value `now` as both TimeFirstByteReceived and
TimeLastByteReceived. -/
theorem telemetry_request_contents {Req : Type} (s : DataServer Req) (now : Timestamp)
    (plan : Plan) (dev : RadioDeviceConfiguration) (framing : Framing) (data : List Byte)
    (hdev : plan.DownlinkRadioDevice = some dev) :
    ∃ t : SatelliteTelemetry,
      s.TelemetryRequest now plan framing data = some (s.client.TelemetryRequest t) ∧
      t.PlanId = plan.PlanId ∧
      t.Telemetry.Data = data ∧
      t.Telemetry.Framing = framing ∧
      t.Telemetry.DownlinkFrequencyHz = dev.CenterFrequencyHz ∧
      t.Telemetry.TimeFirstByteReceived = now ∧
      t.Telemetry.TimeLastByteReceived = now ∧
      t.Telemetry.TimeFirstByteReceived = t.Telemetry.TimeLastByteReceived := by
  refine ⟨⟨plan.PlanId, ⟨data, framing, now, now, dev.CenterFrequencyHz⟩⟩, ?_, rfl, rfl, rfl,
    rfl, rfl, rfl, rfl⟩
  simp [DataServer.TelemetryRequest, hdev]

/-- Witness of C5: a plan "p1" with a downlink device at 437 MHz, framing AX25
and the payload `01 02`, with a client that passes the telemetry on as is. -/
theorem telemetry_request_contents_witness :
    (Plan.mk "p1" (some ⟨437000000⟩)).DownlinkRadioDevice = some ⟨437000000⟩ ∧
    ∃ t : SatelliteTelemetry,
      (NewDataServer id ⟨"gs", "1", "a", "k", 0⟩ ⟨"d", "a", "AX.25", "", ""⟩
          (Client.mk id)).TelemetryRequest
        5 (Plan.mk "p1" (some ⟨437000000⟩)) Framing.AX25 [1, 2]
        = some ((Client.mk id).TelemetryRequest t) ∧
      t.PlanId = "p1" ∧
      t.Telemetry.Data = [1, 2] ∧
      t.Telemetry.Framing = Framing.AX25 ∧
      t.Telemetry.DownlinkFrequencyHz = 437000000 ∧
      t.Telemetry.TimeFirstByteReceived = 5 ∧
      t.Telemetry.TimeLastByteReceived = 5 ∧
      t.Telemetry.TimeFirstByteReceived = t.Telemetry.TimeLastByteReceived :=
  ⟨rfl, telemetry_request_contents
    (NewDataServer id ⟨"gs", "1", "a", "k", 0⟩ ⟨"d", "a", "AX.25", "", ""⟩ (Client.mk id))
    5 (Plan.mk "p1" (some ⟨437000000⟩)) ⟨437000000⟩ Framing.AX25 [1, 2] rfl⟩

/-! ## The pass session loop -/

theorem PlanStart_run_append {Req : Type} (s : DataServer Req) (plan : Plan) :
    ∀ (xs ys : List PassEvent) (sess : Session Req),
      PlanStart.run s plan sess (xs ++ ys)
        = PlanStart.run s plan (PlanStart.run s plan sess xs) ys
  | [], _, _ => rfl
  | x :: xs, ys, sess => by
    simp only [List.cons_append, PlanStart.run]
    exact PlanStart_run_append s plan xs ys _

theorem PlanStart_run_ended {Req : Type} (s : DataServer Req) (plan : Plan) :
    ∀ (es : List PassEvent) (sent : List Req),
      PlanStart.run s plan ⟨PassState.Ended, sent⟩ es = ⟨PassState.Ended, sent⟩
  | [], _ => rfl
  | e :: es, sent => by
    cases e <;> simp only [PlanStart.run, PlanStart.step] <;>
      exact PlanStart_run_ended s plan es sent

/-- In the `Active` loop, with a plan that has a downlink device, the events
before the LOS timer leave the session `Active` and pass to `stream.Send`
exactly the requests of the frame events, in order. -/
theorem PlanStart_run_active {Req : Type} (s : DataServer Req) (plan : Plan)
    (dev : RadioDeviceConfiguration) (hdev : plan.DownlinkRadioDevice = some dev) :
    ∀ (es : List PassEvent) (sent : List Req), PassEvent.losTimer ∉ es →
      PlanStart.run s plan ⟨PassState.Active, sent⟩ es
        = ⟨PassState.Active, sent ++ es.filterMap (PassEvent.request s plan)⟩
  | [], sent, _ => by simp [PlanStart.run]
  | e :: es, sent, hlos => by
    have hrest : PassEvent.losTimer ∉ es := fun h => hlos (List.mem_cons_of_mem _ h)
    cases e with
    | aosReached openErr =>
      simp only [PlanStart.run, PlanStart.step]
      rw [PlanStart_run_active s plan dev hdev es sent hrest]
      simp [PassEvent.request]
    | losTimer => exact absurd (List.mem_cons_self _ _) hlos
    | frame data now sendErr =>
      simp only [PlanStart.run, PlanStart.step, DataServer.TelemetryRequest, hdev]
      rw [PlanStart_run_active s plan dev hdev es _ hrest]
      simp [PassEvent.request, DataServer.TelemetryRequest, hdev]

theorem PlanStart_step_withSendErr {Req : Type} (s : DataServer Req) (plan : Plan)
    (b : Bool) (sess : Session Req) (e : PassEvent) :
    PlanStart.step s plan sess (PassEvent.withSendErr b e) = PlanStart.step s plan sess e := by
  cases e <;> rfl

theorem PlanStart_run_withSendErr {Req : Type} (s : DataServer Req) (plan : Plan) (b : Bool) :
    ∀ (es : List PassEvent) (sess : Session Req),
      PlanStart.run s plan sess (es.map (PassEvent.withSendErr b)) = PlanStart.run s plan sess es
  | [], _ => rfl
  | e :: es, sess => by
    simp only [List.map_cons, PlanStart.run, PlanStart_step_withSendErr]
    exact PlanStart_run_withSendErr s plan b es _

/-- C8: in an `Active` pass session whose plan has a downlink device, for
every sequence of events `pre` handled before the LOS timer event and every
sequence `post` arriving after it, the loop is `Ended` once it has handled the
LOS event, and the requests sent are exactly those of the frame events of
`pre`: nothing of `post` is sent. For any plan, an `Active` session that
handles the LOS event is `Ended` with the requests it had sent before. -/
theorem los_cutoff {Req : Type} (s : DataServer Req) (plan : Plan)
    (dev : RadioDeviceConfiguration) (sent : List Req) (pre post : List PassEvent)
    (hdev : plan.DownlinkRadioDevice = some dev) (hpre : PassEvent.losTimer ∉ pre) :
    PlanStart.run s plan ⟨PassState.Active, sent⟩ (pre ++ PassEvent.losTimer :: post)
      = ⟨PassState.Ended, sent ++ pre.filterMap (PassEvent.request s plan)⟩ ∧
    ∀ sess : Session Req, sess.state = PassState.Active →
      PlanStart.run s plan sess (PassEvent.losTimer :: post) = ⟨PassState.Ended, sess.sent⟩ := by
  constructor
  · rw [PlanStart_run_append, PlanStart_run_active s plan dev hdev pre sent hpre]
    simp only [PlanStart.run, PlanStart.step]
    exact PlanStart_run_ended s plan post _
  · intro sess hact
    obtain ⟨st, snt⟩ := sess
    simp only at hact
    subst hact
    simp only [PlanStart.run, PlanStart.step]
    exact PlanStart_run_ended s plan post _

/-- Witness of C8: the frames `01` and `02`, then LOS, then the frame `03`:
the session is `Ended` and only the first two frames were sent. -/
theorem los_cutoff_witness :
    ((Plan.mk "p1" (some ⟨437000000⟩)).DownlinkRadioDevice = some ⟨437000000⟩ ∧
      PassEvent.losTimer ∉ [PassEvent.frame [1] 10 false, PassEvent.frame [2] 11 false]) ∧
    (PlanStart.run
        (NewDataServer id ⟨"gs", "1", "a", "k", 0⟩ ⟨"d", "a", "IQ", "", ""⟩ (Client.mk id))
        (Plan.mk "p1" (some ⟨437000000⟩)) ⟨PassState.Active, []⟩
        ([PassEvent.frame [1] 10 false, PassEvent.frame [2] 11 false]
          ++ PassEvent.losTimer :: [PassEvent.frame [3] 12 false])
      = ⟨PassState.Ended, [] ++ [PassEvent.frame [1] 10 false,
          PassEvent.frame [2] 11 false].filterMap
          (PassEvent.request
            (NewDataServer id ⟨"gs", "1", "a", "k", 0⟩ ⟨"d", "a", "IQ", "", ""⟩ (Client.mk id))
            (Plan.mk "p1" (some ⟨437000000⟩)))⟩ ∧
    ∀ sess : Session SatelliteTelemetry, sess.state = PassState.Active →
      PlanStart.run
        (NewDataServer id ⟨"gs", "1", "a", "k", 0⟩ ⟨"d", "a", "IQ", "", ""⟩ (Client.mk id))
        (Plan.mk "p1" (some ⟨437000000⟩)) sess
        (PassEvent.losTimer :: [PassEvent.frame [3] 12 false])
      = ⟨PassState.Ended, sess.sent⟩) :=
  ⟨⟨rfl, by decide⟩,
    los_cutoff
      (NewDataServer id ⟨"gs", "1", "a", "k", 0⟩ ⟨"d", "a", "IQ", "", ""⟩ (Client.mk id))
      (Plan.mk "p1" (some ⟨437000000⟩)) ⟨437000000⟩ []
      [PassEvent.frame [1] 10 false, PassEvent.frame [2] 11 false]
      [PassEvent.frame [3] 12 false] rfl (by decide)⟩

/-- C9: in an `Active` pass session whose plan has a downlink device, a frame
event whose `stream.Send` returns an error leaves the loop `Active`; the frame
events handled after it and before LOS are all passed to `stream.Send`, in
order; and the run of the loop is the same whatever the outcomes of the sends,
so the frames attempted do not depend on which sends failed. -/
theorem failed_send_keeps_pass {Req : Type} (s : DataServer Req) (plan : Plan)
    (dev : RadioDeviceConfiguration) (sent : List Req) (data : List Byte) (now : Timestamp)
    (rest : List PassEvent)
    (hdev : plan.DownlinkRadioDevice = some dev) (hrest : PassEvent.losTimer ∉ rest) :
    (PlanStart.step s plan ⟨PassState.Active, sent⟩ (PassEvent.frame data now true)).state
      = PassState.Active ∧
    PlanStart.run s plan ⟨PassState.Active, sent⟩ (PassEvent.frame data now true :: rest)
      = ⟨PassState.Active,
          sent ++ (PassEvent.frame data now true :: rest).filterMap (PassEvent.request s plan)⟩ ∧
    (∀ (d : List Byte) (n : Timestamp) (e : Bool),
      (PassEvent.request s plan (PassEvent.frame d n e)).isSome = true) ∧
    (∀ (es : List PassEvent) (b : Bool) (sess : Session Req),
      PlanStart.run s plan sess (es.map (PassEvent.withSendErr b))
        = PlanStart.run s plan sess es) := by
  refine ⟨?_, ?_, ?_, ?_⟩
  · simp [PlanStart.step, DataServer.TelemetryRequest, hdev]
  · apply PlanStart_run_active s plan dev hdev
    intro h
    rcases List.mem_cons.mp h with h | h
    · cases h
    · exact hrest h
  · intro d n e
    simp [PassEvent.request, DataServer.TelemetryRequest, hdev]
  · intro es b sess
    exact PlanStart_run_withSendErr s plan b es sess

/-- Witness of C9: the send of the frame `01` fails, the frame `02` is still
sent. -/
theorem failed_send_keeps_pass_witness :
    ((Plan.mk "p1" (some ⟨437000000⟩)).DownlinkRadioDevice = some ⟨437000000⟩ ∧
      PassEvent.losTimer ∉ [PassEvent.frame [2] 11 false]) ∧
    (PlanStart.run
        (NewDataServer id ⟨"gs", "1", "a", "k", 0⟩ ⟨"d", "a", "IQ", "", ""⟩ (Client.mk id))
        (Plan.mk "p1" (some ⟨437000000⟩)) ⟨PassState.Active, []⟩
        (PassEvent.frame [1] 10 true :: [PassEvent.frame [2] 11 false])).sent.length = 2 := by
  have h := failed_send_keeps_pass
    (NewDataServer id ⟨"gs", "1", "a", "k", 0⟩ ⟨"d", "a", "IQ", "", ""⟩ (Client.mk id))
    (Plan.mk "p1" (some ⟨437000000⟩)) ⟨437000000⟩ [] [1] 10
    [PassEvent.frame [2] 11 false] rfl (by decide)
  refine ⟨⟨rfl, by decide⟩, ?_⟩
  rw [h.2.1]
  rfl

/-! ## `Stop`, the channels and the pass session -/

/-- C6, what the code does: `Stop` cancels the context of the data server and
leaves every pass session as it is; a session waiting for AOS is still
waiting, an `Active` one is still `Active` and still forwards the frames it
receives, until the LOS timer fires. -/
theorem stop_leaves_session {Req : Type} (plan : Plan) (sys : System Req) :
    (System.step plan sys Action.stop).server.ctxDone = true ∧
    (System.step plan sys Action.stop).session = sys.session ∧
    (System.run plan
        (System.active id ⟨"gs", "1", "a", "k", 0⟩ ⟨"d", "a", "IQ", "", ""⟩
          (Client.mk (id : SatelliteTelemetry → SatelliteTelemetry)) [])
        [Action.stop]).session.state = PassState.Active ∧
    (PlanStart.run (NewDataServer id ⟨"gs", "1", "a", "k", 0⟩ ⟨"d", "a", "IQ", "", ""⟩
          (Client.mk (id : SatelliteTelemetry → SatelliteTelemetry))).Stop
        (Plan.mk "p1" (some ⟨437000000⟩)) ⟨PassState.Active, []⟩
        [PassEvent.frame [1] 10 false]).sent.length = 1 :=
  ⟨rfl, rfl, rfl, rfl⟩

theorem System_step_invariant {Req : Type} (plan : Plan) (sys : System Req) (a : Action)
    (hchan : sys.server.recv ≠ sys.server.send) (hsent : sys.session.sent = []) :
    (System.step plan sys a).server.recv ≠ (System.step plan sys a).server.send ∧
    (System.step plan sys a).session.sent = [] := by
  cases a with
  | read =>
    simp only [System.step]
    split
    · split <;> exact ⟨hchan, hsent⟩
    · exact ⟨hchan, hsent⟩
  | receive now sendErr =>
    simp only [System.step]
    split
    · rw [if_neg (fun h => hchan h.1)]
      exact ⟨hchan, hsent⟩
    · exact ⟨hchan, hsent⟩
  | aosReached openErr =>
    refine ⟨hchan, ?_⟩
    simp only [System.step, PlanStart.step]
    split
    · split <;> exact hsent
    · exact hsent
  | losTimer =>
    refine ⟨hchan, ?_⟩
    simp only [System.step, PlanStart.step]
    split <;> exact hsent
  | stop => exact ⟨hchan, hsent⟩

theorem System_run_invariant {Req : Type} (plan : Plan) :
    ∀ (as : List Action) (sys : System Req),
      sys.server.recv ≠ sys.server.send → sys.session.sent = [] →
      (System.run plan sys as).session.sent = []
  | [], _, _, hsent => hsent
  | a :: as, sys, hchan, hsent => by
    have h := System_step_invariant plan sys a hchan hsent
    exact System_run_invariant plan as _ h.1 h.2

/-- C7, what the code does: the inbound loop of `serve` sends every frame it
decodes on `s.recv`, the loop of `PlanStart` receives on `s.send`, and
`NewDataServer` makes these two distinct channels; so whatever bytes the
connection carries and whatever the schedule, an `Active` pass session sends
no telemetry request at all. On the connection carrying the one frame `aa` the
frame is decoded and the inbound loop stays blocked in its send. -/
theorem frames_never_reach_session {Req : Type} (u : Char → Char)
    (gsConfig : GroundStationConfig) (config : DataServerConfig) (client : Client Req)
    (plan : Plan) (r : List Byte) (as : List Action) :
    (System.run plan (System.active u gsConfig config client r) as).session.sent = [] ∧
    (System.run plan (System.active u gsConfig config client (serveEncode [170]))
      [Action.read, Action.receive 0 false]).inbound = Inbound.sending [170] [] := by
  constructor
  · apply System_run_invariant
    · simp [System.active, NewDataServer]
    · rfl
  · have hdec := @serveDecode_serveEncode [170] (by norm_num) []
    rw [List.append_nil] at hdec
    simp [System.run, System.step, System.active, hdec, NewDataServer]

/-! ## The plan list of the schedule server -/

/-- C10, what the code does: for a list of one plan whose JSON encoding is
`json`, the body written for a successful GET is the opening of the object and
of the array, `json`, a comma and a newline, and then the closing bracket and
brace: the last element is followed by a comma. For the empty list the array
is empty. -/
theorem plan_list_trailing_comma (quote : String → String) (json : String) (plan : Plan) :
    home quote (fun _ => .ok json) "GET" (.ok [plan])
      = ⟨200, "\x7b\"plans\": [" ++ "\n" ++ ("" ++ json ++ ",\n") ++ "]\x7d" ++ "\n"⟩ ∧
    home quote (fun _ => .ok "\x7b\x7d") "GET" (.ok [plan])
      = ⟨200, "\x7b\"plans\": [\n\x7b\x7d,\n]\x7d\n"⟩ ∧
    home quote (fun _ => .ok json) "GET" (.ok [])
      = ⟨200, "\x7b\"plans\": [\n]\x7d\n"⟩ := by
  refine ⟨?_, ?_, ?_⟩
  · simp [home, marshalPlans]
  · simp [home, marshalPlans]
  · simp [home, marshalPlans]

end ssgs
